import Mathlib

/-!
# treefmt: change detection (cache and walkers)

A shallow embedding of `caching/cache.go`, `caching/noop.go`, `caching/bolt.go`,
`walker/walker.go`, `walker/filesystem.go` and `walker/git.go`.

Conventions of the embedding

* A Go `error` is `Option Error`: `none` is `nil`, `some msg` carries the message.
* A Go pointer that may be nil (`*Entry`, `fs.FileInfo`) is an `Option`.
* A channel that is ranged over until it is closed is the list of its elements.
* Closure variables of `Walk` (`tx`, `processed`, the git lookup table) are fields
  of an explicit state that every callback invocation receives and returns.
* Calls that leave the walker (`BeginRead`, `GetPath`, `Rollback`, `stats.Add`, `fn`)
  are appended, in program order, to the `trace` of that state.
* Everything outside the repository (the operating system, `path/filepath`, bbolt,
  msgpack, go-git, the context) is either a field of `OS` or a short model whose
  doc comment states the library behaviour it stands for.
* Path strings are compared and sliced per character; Go does it per byte, the two
  agree on ASCII paths.
-/

namespace Treefmt

/-! ## Values -/

/-- A Go error value, by its message. -/
abbrev Error := String

/-- A `time.Time` built by `time.Unix` (what `os.Lstat`, msgpack and go-git produce):
no monotonic reading, location `Local`, so that Go `==` on two such values is
equality of the instant. The instant is held in nanoseconds since the Unix epoch. -/
structure Time where
  unixNano : Int
deriving DecidableEq, Repr

/-- The duration `time.Second`, in nanoseconds. -/
def Second : Int := 1000000000

/-- Go `Time.Truncate(d)`: `t` rounded down to a multiple of `d`; `t` itself when `d <= 0`. -/
def Time.Truncate (t : Time) (d : Int) : Time :=
  if d ≤ 0 then t else ⟨t.unixNano - t.unixNano % d⟩

/-- Go `fs.ModeDir`, bit 31 of an `fs.FileMode`. -/
def ModeDir : Nat := 2 ^ 31

/-- Go `os.ModeSymlink`, bit 27 of an `fs.FileMode`. -/
def ModeSymlink : Nat := 2 ^ 27

/-- The result of a successful `Lstat`: an `fs.FileInfo`. -/
structure FileInfo where
  size : Int
  mode : Nat
  modTime : Time
deriving DecidableEq, Repr

/-- Go `info.Size()`. -/
def FileInfo.Size (i : FileInfo) : Int := i.size

/-- Go `info.Mode()`. -/
def FileInfo.Mode (i : FileInfo) : Nat := i.mode

/-- Go `info.ModTime()`. -/
def FileInfo.ModTime (i : FileInfo) : Time := i.modTime

/-- Go `info.IsDir()`: the directory bit of the mode is set. -/
def FileInfo.IsDir (i : FileInfo) : Bool := i.mode &&& ModeDir != 0

/-- Go `caching.Entry`: the last size and modification time recorded for a path. -/
structure Entry where
  Size : Int
  Modified : Time
deriving DecidableEq, Repr

/-- Go `walker.File`. -/
structure File where
  Path : String
  RelPath : String
  Info : FileInfo
deriving DecidableEq, Repr

/-- Go `walker.WalkFunc`: `func(file *File, err error) error`. -/
abbrev WalkFunc := File → Option Error → Option Error

/-- What a callback invocation ends in: it returns an error value, or it panics. -/
inductive Ret where
  | ret (err : Option Error)
  | panic (msg : String)
deriving DecidableEq, Repr

/-! ## The transactional store (bbolt) and the value codec (msgpack) -/

/-- The bytes stored under a key of a bucket: the msgpack encoding of an `Entry`,
or bytes that do not decode. -/
inductive Blob where
  | enc (e : Entry)
  | junk
deriving DecidableEq, Repr

/-- Go `msgpack.Marshal(entry)`: encoding an `Entry` (an int64 and a timestamp) succeeds. -/
def msgpackMarshal (e : Entry) : Except Error Blob := .ok (.enc e)

/-- Go `msgpack.Unmarshal(b, &cached)`. -/
def msgpackUnmarshal : Blob → Except Error Entry
  | .enc e => .ok e
  | .junk => .error "msgpack: invalid code"

/-- A bucket of the store: its key/value pairs, every key at most once. -/
abbrev Bucket := List (String × Blob)

/-- Go `bucket.Get(key)`: the value stored under `key`, `nil` when there is none. -/
def bucketGet (b : Bucket) (key : String) : Option Blob :=
  (b.find? (fun kv => kv.1 == key)).map (fun kv => kv.2)

/-- The bucket with `key` bound to `v`: an existing binding is replaced. -/
def bucketSet (key : String) (v : Blob) : Bucket → Bucket
  | [] => [(key, v)]
  | kv :: rest => if kv.1 == key then (key, v) :: rest else kv :: bucketSet key v rest

/-- Go `bolt.MaxKeySize`. -/
def MaxKeySize : Nat := 32768

/-- A bbolt transaction as the cache sees it: whether it is writable, and the paths
bucket of its snapshot (with the writes made through it so far). -/
structure BoltTx where
  writable : Bool
  paths : Bucket
deriving DecidableEq, Repr

/-- Go `bucket.Put(key, value)` within a transaction. bbolt refuses a read-only
transaction, an empty key and an oversized key. -/
def BoltTx.Put (tx : BoltTx) (key : String) (v : Blob) : Option Error × BoltTx :=
  if !tx.writable then (some "tx not writable", tx)
  else if key.length = 0 then (some "key required", tx)
  else if key.length > MaxKeySize then (some "key too large", tx)
  else (none, { tx with paths := bucketSet key v tx.paths })

/-- The store behind one cache file: whether the handle is open, and the committed
paths bucket. -/
structure BoltDB where
  opened : Bool
  paths : Bucket
deriving DecidableEq, Repr

/-- Go `db.Begin(false)`: a read transaction over the committed state. -/
def BoltDB.Begin (db : BoltDB) : Except Error BoltTx :=
  if db.opened then .ok { writable := false, paths := db.paths }
  else .error "database not open"

/-- Go `db.Update(fn)`: `fn` runs in a writable transaction, which is committed when `fn`
returns nil and rolled back (the store is left as it was) when it returns an error. -/
def BoltDB.Update (db : BoltDB) (fn : BoltTx → Option Error × BoltTx) : Option Error × BoltDB :=
  if db.opened then
    match fn { writable := true, paths := db.paths } with
    | (some err, _) => (some err, db)
    | (none, tx) => (none, { db with paths := tx.paths })
  else (some "database not open", db)

/-- Go `db.View(fn)`: `fn` runs in a read-only transaction, which is always rolled back. -/
def BoltDB.View (db : BoltDB) (fn : BoltTx → Option Error × BoltTx) : Option Error :=
  if db.opened then (fn { writable := false, paths := db.paths }).1
  else some "database not open"

/-! ## caching: `Tx` and `Cache` -/

/-- A value of the interface `caching.Tx`, by its dynamic type. `*boltTx` and
`*bolt.Tx` both have `Commit` and `Rollback`, so both satisfy the interface. -/
inductive Tx where
  | noOpTx
  | boltTx (tx : BoltTx)
  | boltTxPtr (tx : BoltTx)
  | rawBoltTx (tx : BoltTx)
deriving DecidableEq, Repr

/-- Go `tx.Rollback()`. `noOpTx.Rollback` returns nil; `boltTx.Rollback` forwards to
bbolt, which fails only on a transaction that is already closed, and every handle of
the model is an open transaction (the walker drops its handle after `Rollback`). -/
def Tx.Rollback : Tx → Option Error
  | .noOpTx => none
  | .boltTx _ => none
  | .boltTxPtr _ => none
  | .rawBoltTx _ => none

/-- The two implementations of `caching.Cache`. -/
inductive Cache where
  | NoOpCache
  | BoltCache (db : BoltDB)
deriving DecidableEq, Repr

/-- The message both `NoOpCache.tx` and `BoltCache.unwrapTx` fail with. -/
def wrongTx : Error := "tx must be of type NoOpTx"

/-- Go `NoOpCache.tx`: the type switch `case noOpTx`. -/
def NoOpCache.tx : Tx → Option Error
  | .noOpTx => none
  | _ => some wrongTx

/-- Go `BoltCache.unwrapTx`: the type switch has the single case `boltTx` (the value
type); every other dynamic type takes the default branch. -/
def BoltCache.unwrapTx : Tx → Except Error BoltTx
  | .boltTx tx => .ok tx
  | _ => .error wrongTx

/-- Go `getEntry(bucket, path)`. -/
def getEntry (bucket : Bucket) (path : String) : Except Error (Option Entry) :=
  match bucketGet bucket path with
  | some b =>
    match msgpackUnmarshal b with
    | .error err =>
      .error ("failed to unmarshal cache info for path '" ++ path ++ "': " ++ err)
    | .ok cached => .ok (some cached)
  | none => .ok none

/-- Go `putEntry(bucket, path, entry)`. -/
def putEntry (tx : BoltTx) (path : String) (entry : Entry) : Option Error × BoltTx :=
  match msgpackMarshal entry with
  | .error err => (some ("failed to marshal cache path " ++ path ++ ": " ++ err), tx)
  | .ok bytes =>
    match tx.Put path bytes with
    | (some err, tx1) => (some ("failed to put cache path " ++ path ++ ": " ++ err), tx1)
    | (none, tx1) => (none, tx1)

/-- Go `Cache.BeginRead()`. `NoOpCache` hands out `noOpTx{}`; `BoltCache` hands out the
value `boltTx{tx}`. -/
def Cache.BeginRead : Cache → Except Error Tx
  | .NoOpCache => .ok .noOpTx
  | .BoltCache db =>
    match db.Begin with
    | .ok tx => .ok (.boltTx tx)
    | .error err => .error err

/-- The bbolt transaction a handle wraps, if any. -/
def Tx.inner : Tx → Option BoltTx
  | .noOpTx => none
  | .boltTx tx => some tx
  | .boltTxPtr tx => some tx
  | .rawBoltTx tx => some tx

/-- Go `Cache.Update(f)`. `NoOpCache` calls `f(noOpTx{})`; `BoltCache` calls
`f(&boltTx{tx})`, a pointer, inside `db.Update`. -/
def Cache.Update (c : Cache) (f : Tx → Option Error × Tx) : Option Error × Cache :=
  match c with
  | .NoOpCache => ((f .noOpTx).1, .NoOpCache)
  | .BoltCache db =>
    let r := db.Update (fun tx =>
      let out := f (.boltTxPtr tx)
      (out.1, (out.2.inner).getD tx))
    (r.1, .BoltCache r.2)

/-- Go `Cache.View(f)`. `NoOpCache` calls `f(noOpTx{})`; `BoltCache` calls
`f(&boltTx{tx})`, a pointer, inside `db.View`. -/
def Cache.View (c : Cache) (f : Tx → Option Error × Tx) : Option Error :=
  match c with
  | .NoOpCache => (f .noOpTx).1
  | .BoltCache db =>
    db.View (fun tx =>
      let out := f (.boltTxPtr tx)
      (out.1, (out.2.inner).getD tx))

/-- Go `Cache.GetPath(tx, path)`. -/
def Cache.GetPath (c : Cache) (tx : Tx) (path : String) : Except Error (Option Entry) :=
  match c with
  | .NoOpCache =>
    match NoOpCache.tx tx with
    | some err => .error err
    | none => .ok none
  | .BoltCache _ =>
    match BoltCache.unwrapTx tx with
    | .error err => .error err
    | .ok boltTx => getEntry boltTx.paths path

/-- Go `Cache.UpdatePath(tx, path, entry)`; the handle is returned with the write made
through it. -/
def Cache.UpdatePath (c : Cache) (tx : Tx) (path : String) (entry : Entry) :
    Option Error × Tx :=
  match c with
  | .NoOpCache => (NoOpCache.tx tx, tx)
  | .BoltCache _ =>
    match BoltCache.unwrapTx tx with
    | .error err => (some err, tx)
    | .ok boltTx =>
      let r := putEntry boltTx path entry
      (r.1, .boltTx r.2)

/-- The cursor loop of `BoltCache.RemoveAllPaths`: `cursor.First()`, then
`cursor.Delete()` and `cursor.Next()` until the cursor runs off the bucket.
`Delete` fails in a read-only transaction. -/
def removeLoop (writable : Bool) : Bucket → Option Error × Bucket
  | [] => (none, [])
  | kv :: rest =>
    if !writable then (some "failed to remove path entry: tx not writable", kv :: rest)
    else removeLoop writable rest

/-- Go `Cache.RemoveAllPaths(tx)`. -/
def Cache.RemoveAllPaths (c : Cache) (tx : Tx) : Option Error × Tx :=
  match c with
  | .NoOpCache => (NoOpCache.tx tx, tx)
  | .BoltCache _ =>
    match BoltCache.unwrapTx tx with
    | .error err => (some err, tx)
    | .ok boltTx =>
      let r := removeLoop boltTx.writable boltTx.paths
      (r.1, .boltTx { boltTx with paths := r.2 })

/-! ## The git index (go-git) and the context -/

/-- An `index.Entry` of go-git, by the fields the walker reads. -/
structure IndexEntry where
  Name : String
  Mode : Nat
  ModifiedAt : Time
deriving DecidableEq, Repr

/-- Go `filemode.FileMode.IsRegular()` of go-git: the mode is `Regular` (0100644) or
`Deprecated` (0100664). The mode `Executable` (0100755) is not regular in this
sense; go-git counts it as a file in `IsFile` only. -/
def FileModeIsRegular (m : Nat) : Bool :=
  m == 0o100644 || m == 0o100664

/-- A `git.Repository`, by what `repo.Storer.Index()` returns: the entries of the
index, or an error. -/
structure Repository where
  Index : Except Error (List IndexEntry)

/-- A `context.Context`. `Done n` tells whether the channel `ctx.Done()` is closed
when the walker polls it for the `n`-th time (counting from zero) during one `Walk`;
`Err` is what `ctx.Err()` returns once it is. -/
structure Context where
  Done : Nat → Bool
  Err : Error

/-! ## The environment -/

/-- One invocation `filepath.Walk` makes of its callback: the path, the file info
(nil when `Lstat` failed) and the I/O error reported for the path (nil when none). -/
structure Visit where
  path : String
  info : Option FileInfo
  err : Option Error
deriving DecidableEq, Repr

/-- What the program asks of its surroundings.
* `NumCPU`: `runtime.NumCPU()`.
* `Lstat`: `os.Lstat`.
* `Walk root`: the callback invocations `filepath.Walk(root, fn)` makes, in order, as
  long as `fn` returns nil: one for the root, one for every entry below it; a path
  whose `Lstat` failed comes with a nil info and the error, a directory that could
  not be read comes with its info and the error, and is not descended into.
* `Rel`, `Join`: `filepath.Rel`, `filepath.Join`.
* `sha1Hex`: the hex encoding of the SHA-1 digest of a string.
* `CacheFile`: `xdg.CacheFile`.
* `boltOpen`: `bolt.Open(path, 0o600, nil)`, the store found (or created) at `path`.
* `PlainOpen`: `git.PlainOpen`. -/
structure OS where
  NumCPU : Nat
  Lstat : String → Except Error FileInfo
  Walk : String → List Visit
  Rel : String → String → Except Error String
  Join : String → String → String
  sha1Hex : String → String
  CacheFile : String → Except Error String
  boltOpen : String → Except Error BoltDB
  PlainOpen : String → Except Error Repository

/-- Go `filepath.Walk(root, walkFn)` over the invocations it has to make: it stops at the
first invocation that does not return nil and returns what that one returned.
(The sentinel errors `filepath.SkipDir` and `filepath.SkipAll` are not modelled; no
callback of this repository produces them.) -/
def filepathWalk {σ : Type}
    (walkFn : σ → String → Option FileInfo → Option Error → Ret × σ) :
    List Visit → σ → Ret × σ
  | [], s => (.ret none, s)
  | v :: rest, s =>
    match walkFn s v.path v.info v.err with
    | (.ret none, s1) => filepathWalk walkFn rest s1
    | out => out

/-- The result of `relPath`: `(rel, nil)`, `("", err)`, or a run-time panic of a
slice expression. -/
inductive PathResult where
  | ok (rel : String)
  | err (e : Error)
  | panic (msg : String)
deriving DecidableEq, Repr

/-- The body shared, word for word, by `filesystemWalker.relPath` and
`gitWalker.relPath`:
`if len(path) >= relPathOffset && path[:len(root)] == root`, then
`path[relPathOffset:]`, else `filepath.Rel(root, path)`. A slice expression whose
bound exceeds the length of the string panics. -/
def relPath (root : String) (relPathOffset : Nat) (os : OS) (path : String) : PathResult :=
  if path.length ≥ relPathOffset then
    if root.length > path.length then .panic "slice bounds out of range"
    else if path.data.take root.length == root.data then
      .ok (String.mk (path.data.drop relPathOffset))
    else
      match os.Rel root path with
      | .ok rel => .ok rel
      | .error e => .err e
  else
    match os.Rel root path with
    | .ok rel => .ok rel
    | .error e => .err e

/-- A call the walker makes to one of its collaborators. -/
inductive Event where
  | beginRead (result : Except Error Tx)
  | getPath (tx : Tx) (relPath : String)
  | rollback (tx : Tx)
  | traversed
  | fn (file : File)

/-- The files `fn` was invoked with, in order. -/
def fnCalls : List Event → List File
  | [] => []
  | .fn file :: rest => file :: fnCalls rest
  | _ :: rest => fnCalls rest

/-- The number of successful `BeginRead` calls: the read transactions opened. -/
def beginCount : List Event → Nat
  | [] => 0
  | .beginRead (.ok _) :: rest => beginCount rest + 1
  | _ :: rest => beginCount rest

/-- The number of `Rollback` calls. -/
def rollbackCount : List Event → Nat
  | [] => 0
  | .rollback _ :: rest => rollbackCount rest + 1
  | _ :: rest => rollbackCount rest

/-- The lookups per transaction, read off a trace: `run` counts the `GetPath` calls
since the last `Rollback`, `best` is the largest such count that a `Rollback` has
ended; the result is the pair of the two at the end of the trace. -/
def lookupRuns (run best : Nat) : List Event → Nat × Nat
  | [] => (run, best)
  | .getPath _ _ :: rest => lookupRuns (run + 1) best rest
  | .rollback _ :: rest => lookupRuns 0 (max run best) rest
  | _ :: rest => lookupRuns run best rest

/-- The largest number of `GetPath` calls served by one read transaction, that is
made between two consecutive `Rollback` calls, before the first or after the last. -/
def maxLookupsPerTx (trace : List Event) : Nat :=
  max (lookupRuns 0 0 trace).1 (lookupRuns 0 0 trace).2

/-! ## walker: the filesystem walker -/

/-- Go `walker.filesystemWalker`. -/
structure filesystemWalker where
  root : String
  cache : Cache
  pathsCh : List String
  relPathOffset : Nat

/-- Go `NewFilesystem(root, cache, paths)`; it never fails. -/
def NewFilesystem (root : String) (cache : Cache) (paths : List String) : filesystemWalker :=
  { root := root, cache := cache, pathsCh := paths, relPathOffset := root.length + 1 }

/-- Go `filesystemWalker.relPath`. -/
def filesystemWalker.relPath (f : filesystemWalker) (os : OS) (path : String) : PathResult :=
  Treefmt.relPath f.root f.relPathOffset os path

/-- The loop of `filesystemWalker.UpdatePaths`, inside the write transaction. -/
def updateLoop (cache : Cache) : List File → Tx → Option Error × Tx
  | [], tx => (none, tx)
  | f :: rest, tx =>
    let entry : Entry := { Size := f.Info.Size, Modified := f.Info.ModTime }
    match cache.UpdatePath tx f.RelPath entry with
    | (some err, tx1) => (some err, tx1)
    | (none, tx1) => updateLoop cache rest tx1

/-- Go `filesystemWalker.UpdatePaths(batch)`: the error returned and the cache afterwards. -/
def filesystemWalker.UpdatePaths (f : filesystemWalker) (batch : List File) :
    Option Error × Cache :=
  let cache := f.cache
  match cache.Update (fun tx => updateLoop cache batch tx) with
  | (some err, c) => (some ("failed to update paths: " ++ err), c)
  | (none, c) => (none, c)

/-- The variables of `Walk` that its closure `walkFn` reads and writes (`tx`,
`processed`), and the calls made so far. -/
structure WalkState where
  tx : Option Tx
  processed : Nat
  trace : List Event

/-- The expression assigned to `changedOrNew` in `walkFn`. -/
def changedOrNew (cached : Option Entry) (info : FileInfo) : Bool :=
  match cached with
  | none => true
  | some c => !(c.Modified == info.ModTime && c.Size == info.Size)

/-- The part of `walkFn` after the cache lookup: count the file, close the
transaction at the batch size, compare, emit. -/
def walkFnTail (fn : WalkFunc) (batchSize : Nat) (s : WalkState) (tx : Tx) (file : File)
    (cached : Option Entry) : Ret × WalkState :=
  let processed := s.processed + 1
  let closed : Option Error × WalkState :=
    if processed == batchSize then
      match tx.Rollback with
      | some err => (some err, { s with processed := processed,
                                        trace := s.trace ++ [.rollback tx] })
      | none => (none, { tx := none, processed := processed,
                         trace := s.trace ++ [.rollback tx] })
    else (none, { s with processed := processed })
  match closed with
  | (some err, s1) => (.ret (some err), s1)
  | (none, s1) =>
    let s2 := { s1 with trace := s1.trace ++ [.traversed] }
    if !changedOrNew cached file.Info then (.ret none, s2)
    else (.ret (fn file none), { s2 with trace := s2.trace ++ [.fn file] })

/-- The closure `walkFn` of `filesystemWalker.Walk`. The third parameter of the
closure, the error reported by the traversal, is blank in the source. -/
def walkFn (f : filesystemWalker) (os : OS) (fn : WalkFunc) (batchSize : Nat)
    (s : WalkState) (path : String) (info : Option FileInfo) (_ : Option Error) :
    Ret × WalkState :=
  match info with
  | none => (.ret (some ("no such file or directory '" ++ path ++ "'")), s)
  | some info =>
    if info.IsDir || (info.Mode &&& ModeSymlink == ModeSymlink) then (.ret none, s)
    else
      match f.relPath os path with
      | .panic msg => (.panic msg, s)
      | .err err =>
        (.ret (some ("failed to determine a relative path for " ++ path ++ ": " ++ err)), s)
      | .ok relPath =>
        let file : File := { Path := path, RelPath := relPath, Info := info }
        let opened : Except Error Tx × WalkState :=
          match s.tx with
          | some tx => (.ok tx, s)
          | none =>
            let r := f.cache.BeginRead
            match r with
            | .ok tx => (.ok tx, { s with tx := some tx, trace := s.trace ++ [.beginRead r] })
            | .error err => (.error err, { s with trace := s.trace ++ [.beginRead r] })
        match opened with
        | (.error err, s1) =>
          (.ret (some ("failed to open a new cache read tx: " ++ err)), s1)
        | (.ok tx, s1) =>
          let s2 := { s1 with trace := s1.trace ++ [.getPath tx file.RelPath] }
          match f.cache.GetPath tx file.RelPath with
          | .error err => (.ret (some err), s2)
          | .ok cached => walkFnTail fn batchSize s2 tx file cached

/-- The loop `for path := range f.pathsCh` of `filesystemWalker.Walk`. -/
def walkPaths (f : filesystemWalker) (os : OS) (fn : WalkFunc) (batchSize : Nat) :
    List String → WalkState → Ret × WalkState
  | [], s => (.ret none, s)
  | path :: rest, s =>
    match filepathWalk (walkFn f os fn batchSize) (os.Walk path) s with
    | (.ret none, s1) => walkPaths f os fn batchSize rest s1
    | out => out

/-- Go `filesystemWalker.Walk(ctx, fn)`; the context parameter is blank in the source,
`Walk(_ context.Context, fn WalkFunc)`, and so it is here.
Returns what `Walk` returns, and the final state with the calls made. -/
def filesystemWalker.Walk (f : filesystemWalker) (os : OS) (_ : Context) (fn : WalkFunc) :
    Ret × WalkState :=
  let batchSize := 1024 * os.NumCPU
  walkPaths f os fn batchSize f.pathsCh { tx := none, processed := 0, trace := [] }

/-! ## caching: opening the persistent cache -/

/-- Go `NewBoltCache(treeRoot, clear)`. The first `db.Update` creates the two buckets
when they are missing and leaves an existing bucket as it is; the second one, under
`clear`, hands the `*bolt.Tx` itself to `RemoveAllPaths`. -/
def NewBoltCache (os : OS) (treeRoot : String) (clear : Bool) : Except Error Cache :=
  let name := os.sha1Hex treeRoot
  match os.CacheFile ("treefmt/eval-cache/" ++ name ++ ".db") with
  | .error err => .error ("could not resolve local path for the cache: " ++ err)
  | .ok path =>
    match os.boltOpen path with
    | .error err => .error ("failed to open cache at " ++ path ++ ": " ++ err)
    | .ok db =>
      match db.Update (fun tx => (none, tx)) with
      | (some err, _) => .error ("failed to initialise db: " ++ err)
      | (none, db1) =>
        let result := Cache.BoltCache db1
        if clear then
          match db1.Update (fun tx =>
              let out := result.RemoveAllPaths (.rawBoltTx tx)
              (out.1, (out.2.inner).getD tx)) with
          | (some err, _) => .error ("failed to clear paths: " ++ err)
          | (none, db2) => .ok (.BoltCache db2)
        else .ok result

/-! ## walker: the git walker -/

/-- Go `walker.gitWalker`. -/
structure gitWalker where
  root : String
  paths : List String
  repo : Repository
  allFiles : Bool
  relPathOffset : Nat

/-- Go `NewGit(root, allFiles, paths)`. -/
def NewGit (os : OS) (root : String) (allFiles : Bool) (paths : List String) :
    Except Error gitWalker :=
  match os.PlainOpen root with
  | .error err => .error ("failed to open git repo: " ++ err)
  | .ok repo =>
    .ok { root := root, paths := paths, repo := repo, allFiles := allFiles,
          relPathOffset := root.length + 1 }

/-- Go `gitWalker.relPath`. -/
def gitWalker.relPath (g : gitWalker) (os : OS) (path : String) : PathResult :=
  Treefmt.relPath g.root g.relPathOffset os path

/-- A Go `map[string]*index.Entry`. -/
abbrev IndexMap := List (String × IndexEntry)

/-- The map lookup `cache[key]`. -/
def mapGet (m : IndexMap) (key : String) : Option IndexEntry :=
  (m.find? (fun kv => kv.1 == key)).map (fun kv => kv.2)

/-- The map assignment `cache[key] = entry`. -/
def mapSet (key : String) (entry : IndexEntry) : IndexMap → IndexMap
  | [] => [(key, entry)]
  | kv :: rest => if kv.1 == key then (key, entry) :: rest else kv :: mapSet key entry rest

/-- The loop that fills the lookup table: `cache[entry.Name] = entry` for every entry
of the index, in order. -/
def buildCache (entries : List IndexEntry) : IndexMap :=
  entries.foldl (fun m entry => mapSet entry.Name entry m) []

/-- The closure `hasChanged` of `gitWalker.Walk`. -/
def hasChanged (g : gitWalker) (entry : IndexEntry) (info : FileInfo) : Bool :=
  if g.allFiles then true
  else entry.ModifiedAt.Truncate Second != info.ModTime.Truncate Second

/-- The variables of `gitWalker.Walk` that persist across input elements (the lazily
built lookup table), the number of times the context was polled, and the calls made. -/
structure GitState where
  cache : Option IndexMap
  polls : Nat
  trace : List Event

/-- The body of the loop over `idx.Entries` for the root element, for one entry:
`none` when the loop goes on to the next entry, `some r` when `Walk` returns `r`. -/
def indexEntry (g : gitWalker) (os : OS) (ctx : Context) (fn : WalkFunc)
    (s : GitState) (entry : IndexEntry) : Option Ret × GitState :=
  let s1 := { s with polls := s.polls + 1 }
  if ctx.Done s.polls then (some (.ret (some ctx.Err)), s1)
  else if !FileModeIsRegular entry.Mode then (none, s1)
  else
    let path := os.Join g.root entry.Name
    match os.Lstat path with
    | .error err => (some (.ret (some ("failed to stat " ++ path ++ ": " ++ err))), s1)
    | .ok info =>
      if !hasChanged g entry info then (none, s1)
      else
        match g.relPath os path with
        | .panic msg => (some (.panic msg), s1)
        | .err err =>
          (some (.ret (some ("failed to determine a relative path for " ++ path ++ ": "
            ++ err))), s1)
        | .ok relPath =>
          let file : File := { Path := path, RelPath := relPath, Info := info }
          let s2 := { s1 with trace := s1.trace ++ [.fn file] }
          match fn file none with
          | some err => (some (.ret (some err)), s2)
          | none => (none, s2)

/-- The loop `for _, entry := range idx.Entries` for the root element. -/
def indexLoop (g : gitWalker) (os : OS) (ctx : Context) (fn : WalkFunc) :
    List IndexEntry → GitState → Option Ret × GitState
  | [], s => (none, s)
  | entry :: rest, s =>
    match indexEntry g os ctx fn s entry with
    | (none, s1) => indexLoop g os ctx fn rest s1
    | out => out

/-- The callback `gitWalker.Walk` hands to `filepath.Walk` for a subpath. It calls
`info.IsDir()` first, whatever `info` is; the error parameter is blank in the source. -/
def gitWalkFn (g : gitWalker) (os : OS) (fn : WalkFunc) (cache : IndexMap)
    (s : GitState) (path : String) (info : Option FileInfo) (_ : Option Error) :
    Ret × GitState :=
  match info with
  | none => (.panic "invalid memory address or nil pointer dereference", s)
  | some info =>
    if info.IsDir || (info.Mode &&& ModeSymlink == ModeSymlink) then (.ret none, s)
    else
      match g.relPath os path with
      | .panic msg => (.panic msg, s)
      | .err err =>
        (.ret (some ("failed to determine a relative path for " ++ path ++ ": " ++ err)), s)
      | .ok relPath =>
        match mapGet cache relPath with
        | none => (.ret none, s)
        | some entry =>
          if !hasChanged g entry info then (.ret none, s)
          else
            let file : File := { Path := path, RelPath := relPath, Info := info }
            (.ret (fn file none), { s with trace := s.trace ++ [.fn file] })

/-- The loop `for path := range g.paths` of `gitWalker.Walk`, over the index `idx`. -/
def gitPaths (g : gitWalker) (os : OS) (ctx : Context) (fn : WalkFunc)
    (idx : List IndexEntry) : List String → GitState → Ret × GitState
  | [], s => (.ret none, s)
  | path :: rest, s =>
    if path == g.root then
      match indexLoop g os ctx fn idx s with
      | (some r, s1) => (r, s1)
      | (none, s1) => gitPaths g os ctx fn idx rest s1
    else
      let cache : IndexMap :=
        match s.cache with
        | some c => c
        | none => buildCache idx
      let s1 := { s with cache := some cache }
      match os.Rel g.root path with
      | .error err =>
        (.ret (some ("failed to find relative path for " ++ path ++ ": " ++ err)), s1)
      | .ok relPath =>
        let ok := (mapGet cache relPath).isSome
        if !(path == g.root || ok) then gitPaths g os ctx fn idx rest s1
        else filepathWalk (gitWalkFn g os fn cache) (os.Walk path) s1

/-- Go `gitWalker.Walk(ctx, fn)`: what it returns, and the final state with the calls
made. -/
def gitWalker.Walk (g : gitWalker) (os : OS) (ctx : Context) (fn : WalkFunc) :
    Ret × GitState :=
  let start : GitState := { cache := none, polls := 0, trace := [] }
  match g.repo.Index with
  | .error err => (.ret (some ("failed to open git index: " ++ err)), start)
  | .ok idx => gitPaths g os ctx fn idx g.paths start

/-! ## Properties of states, and the inputs the theorems are evaluated at -/

/-- The bookkeeping of a filesystem `Walk` with batch size `N` over a cache whose
read handle is `tx0`, after `s.processed` files whose lookups all succeeded: a
transaction is held except before the first file and right after the `N`-th; one
transaction has been opened up to the `N`-th file and two after it; a `Rollback` has
happened once the `N`-th file is reached, and only then. -/
def Rotation (N : Nat) (tx0 : Tx) (s : WalkState) : Prop :=
  (s.tx = none ∨ s.tx = some tx0) ∧
  (s.tx = none ↔ (s.processed = 0 ∨ s.processed = N)) ∧
  beginCount s.trace = (if s.processed = 0 then 0 else if s.processed ≤ N then 1 else 2) ∧
  rollbackCount s.trace = (if N ≤ s.processed then 1 else 0) ∧
  lookupRuns 0 0 s.trace
    = (if s.processed < N then (s.processed, 0) else (s.processed - N, N))

/-- Deciding `Rotation`: it is a conjunction of equalities between values. -/
instance (N : Nat) (tx0 : Tx) (s : WalkState) : Decidable (Rotation N tx0 s) := by
  unfold Rotation
  infer_instance

/-- A visit that `walkFn` gets through when the cache answers: the info is there, and
the path is a directory or a symlink, or has a relative path. -/
def Visit.plain (f : filesystemWalker) (os : OS) (v : Visit) : Bool :=
  match v.info with
  | none => false
  | some info =>
    (info.IsDir || (info.Mode &&& ModeSymlink == ModeSymlink)) ||
      (match f.relPath os v.path with
       | .ok _ => true
       | _ => false)

/-- The number of regular files among the visits. -/
def regularCount : List Visit → Nat
  | [] => 0
  | v :: rest =>
    match v.info with
    | none => regularCount rest
    | some info =>
      if info.IsDir || (info.Mode &&& ModeSymlink == ModeSymlink) then regularCount rest
      else regularCount rest + 1

/-- 12:00:00.100 on 2024-01-01 (UTC). -/
def exT100 : Time := ⟨1704110400100000000⟩

/-- 12:00:00.900 on 2024-01-01 (UTC), the same second as `exT100`. -/
def exT900 : Time := ⟨1704110400900000000⟩

/-- The directory `/repo`. -/
def exDirInfo : FileInfo := { size := 4096, mode := ModeDir + 0o755, modTime := exT100 }

/-- 11:59:59.900 on 2024-01-01 (UTC), in the second before `exT100`. -/
def exOld : Time := ⟨1704110399900000000⟩

/-- The file `a.txt` on disk: 100 bytes, modified at `exT900`. -/
def exInfoA : FileInfo := { size := 100, mode := 0o644, modTime := exT900 }

/-- The file `b.txt` on disk: 50 bytes, modified at `exT900`. -/
def exInfoB : FileInfo := { size := 50, mode := 0o644, modTime := exT900 }

/-- The file `a.txt` as the walkers emit it. -/
def exFileA : File := { Path := "/repo/a.txt", RelPath := "a.txt", Info := exInfoA }

/-- The file `b.txt` as the walkers emit it. -/
def exFileB : File := { Path := "/repo/b.txt", RelPath := "b.txt", Info := exInfoB }

/-- Go `filepath.Rel(base, targ)` for a target at or below a clean base, the only case
the examples run into; any other target is reported as an error. -/
def exRel (base targ : String) : Except Error String :=
  if targ == base then .ok "."
  else if targ.data.take (base.length + 1) == base.data ++ ['/'] then
    .ok (String.mk (targ.data.drop (base.length + 1)))
  else .error "Rel: target is not below the base"

/-- The git index of the example: `a.txt`, recorded within the second it has on
disk, and `b.txt`, recorded in the second before; both are regular files. -/
def exIndex : List IndexEntry :=
  [{ Name := "a.txt", Mode := 0o100644, ModifiedAt := exT100 },
   { Name := "b.txt", Mode := 0o100644, ModifiedAt := exOld }]

/-- A machine with one CPU and the tree `/repo` holding `a.txt` and `b.txt`; the
store file of every root holds `stored`. -/
def exOS (stored : Bucket) : OS :=
  { NumCPU := 1
    Lstat := fun p =>
      if p == "/repo" then .ok exDirInfo
      else if p == "/repo/a.txt" then .ok exInfoA
      else if p == "/repo/b.txt" then .ok exInfoB
      else .error "no such file or directory"
    Walk := fun p =>
      if p == "/repo" then
        [⟨"/repo", some exDirInfo, none⟩, ⟨"/repo/a.txt", some exInfoA, none⟩,
         ⟨"/repo/b.txt", some exInfoB, none⟩]
      else if p == "/repo/a.txt" then [⟨"/repo/a.txt", some exInfoA, none⟩]
      else if p == "/repo/b.txt" then [⟨"/repo/b.txt", some exInfoB, none⟩]
      else [⟨p, none, some "no such file or directory"⟩]
    Rel := exRel
    Join := fun a b => a ++ "/" ++ b
    sha1Hex := fun _ => "5f2b51ca2fdc5baa31ec02e002f69aec083af145"
    CacheFile := fun p => .ok ("/home/user/.cache/" ++ p)
    boltOpen := fun _ => .ok { opened := true, paths := stored }
    PlainOpen := fun p =>
      if p == "/repo" then .ok { Index := .ok exIndex } else .error "repository does not exist" }

/-- A callback that accepts every file. -/
def fnOk : WalkFunc := fun _ _ => none

/-- A callback that fails on every file. -/
def fnFail : WalkFunc := fun _ _ => some "formatter failed"

/-- A context that is never cancelled. -/
def exCtx : Context := { Done := fun _ => false, Err := "context canceled" }

/-- The filesystem walker for `/repo` over the persistent cache whose store holds
`stored`, with `/repo` as the only element of its channel. -/
def exFsWalker (stored : Bucket) : filesystemWalker :=
  NewFilesystem "/repo" (.BoltCache { opened := true, paths := stored }) ["/repo"]

/-- The git walker for `/repo` over the example index, as `NewGit` builds it. -/
def exGit (allFiles : Bool) (paths : List String) : gitWalker :=
  { root := "/repo", paths := paths, repo := { Index := .ok exIndex },
    allFiles := allFiles, relPathOffset := "/repo".length + 1 }

/-- A store that recorded `a.txt` 800 milliseconds before its present modification
time, within the same second, and `b.txt` as it is on disk. -/
def exStored : Bucket :=
  [("a.txt", .enc { Size := 100, Modified := exT100 }),
   ("b.txt", .enc { Size := 50, Modified := exT900 })]

/-- The visits of a flat tree: the directory `/repo` and, below it, `n` regular files
named by the numbers from `0`. -/
def flatTree (n : Nat) : List Visit :=
  ⟨"/repo", some exDirInfo, none⟩ ::
    (List.range n).map (fun i => ⟨"/repo" ++ "/" ++ toString i, some exInfoA, none⟩)

/-- The machine of `exOS` with `/repo` replaced by the flat tree of `n` files. -/
def flatOS (n : Nat) : OS :=
  { exOS [] with Walk := fun _ => flatTree n }

/-- The machine of `exOS` on which the directory `/repo` cannot be read:
`filepath.Walk` reports it with its info and the error of the failed read. -/
def exDeniedOS : OS :=
  { exOS [] with
    Walk := fun p => [⟨p, some exDirInfo, some "open /repo: permission denied"⟩] }

/-- The machine of `exOS` after `a.txt` was deleted from disk: `filepath.Walk` reports
the failed `Lstat` of its root with a nil info. -/
def exGoneOS : OS :=
  { exOS [] with
    Walk := fun p => [⟨p, none, some "lstat /repo/a.txt: no such file or directory"⟩] }

/-- The file the loop over the index emits for one entry when nothing fails: the
mode of the entry has to pass `IsRegular`, `Lstat` has to find the file, the file has
to have a relative path, and
`allFiles` is set or the two modification times differ once truncated to the second. -/
def rootEmits (g : gitWalker) (os : OS) (entry : IndexEntry) : Option File :=
  if FileModeIsRegular entry.Mode then
    match os.Lstat (os.Join g.root entry.Name), g.relPath os (os.Join g.root entry.Name) with
    | .ok info, .ok p =>
      if g.allFiles = true ∨ entry.ModifiedAt.Truncate Second ≠ info.ModTime.Truncate Second
      then some { Path := os.Join g.root entry.Name, RelPath := p, Info := info }
      else none
    | _, _ => none
  else none

/-! ## The package path/filepath (Unix), for comparison with `relPath` -/

/-- The elements of a path: the runs of characters between separators (`/`). -/
def splitSep : List Char → List (List Char)
  | [] => [[]]
  | c :: rest =>
    if c = '/' then [] :: splitSep rest
    else
      match splitSep rest with
      | [] => [[c]]
      | w :: ws => (c :: w) :: ws

/-- The elements joined by single separators. -/
def joinSep : List (List Char) → List Char
  | [] => []
  | [w] => w
  | w :: ws => w ++ '/' :: joinSep ws

/-- The lexical processing of `filepath.Clean`, element by element: empty elements (from
repeated separators) and `.` are dropped; `..` removes the element before it when
that one is not `..`, is dropped at the start of a rooted path, and is kept
otherwise. `kept` holds the elements kept so far, last first. -/
def cleanElems (rooted : Bool) : List (List Char) → List (List Char) → List (List Char)
  | kept, [] => kept.reverse
  | kept, e :: rest =>
    if e = [] ∨ e = ['.'] then cleanElems rooted kept rest
    else if e = ['.', '.'] then
      match kept with
      | top :: below =>
        if top = ['.', '.'] then cleanElems rooted (e :: kept) rest
        else cleanElems rooted below rest
      | [] => if rooted then cleanElems rooted [] rest else cleanElems rooted [e] rest
    else cleanElems rooted (e :: kept) rest

/-- A cleaned path, by whether it is rooted and by its elements. -/
def cleanParts (path : String) : Bool × List (List Char) :=
  (path.data.head? == some '/', cleanElems (path.data.head? == some '/') [] (splitSep path.data))

/-- Go `filepath.Clean(path)`: the shortest path name equivalent to `path` by purely
lexical processing; `.` for the empty path, `/` for the root. -/
def filepathClean (path : String) : String :=
  match cleanParts path with
  | (true, elems) => String.mk ('/' :: joinSep elems)
  | (false, []) => "."
  | (false, elems) => String.mk (joinSep elems)

/-- Go `filepath.Join(a, b)`: the non-empty ones of the two joined by a separator, and
the result cleaned; the empty string when both are empty. -/
def filepathJoin (a b : String) : String :=
  if a.length = 0 ∧ b.length = 0 then ""
  else if a.length = 0 then filepathClean b
  else if b.length = 0 then filepathClean a
  else filepathClean (a ++ "/" ++ b)

/-- The two lists of elements after their longest common start. -/
def dropCommon : List (List Char) → List (List Char) → List (List Char) × List (List Char)
  | b :: bs, t :: ts => if b = t then dropCommon bs ts else (b :: bs, t :: ts)
  | bs, ts => (bs, ts)

/-- Go `filepath.Rel(basepath, targpath)`: both paths are cleaned; equal paths give `.`;
a rooted and an unrooted path cannot be related; otherwise the common leading
elements are dropped, it is an error when the first differing element of the base is
`..`, and the result is one `..` for every element left of the base followed by the
elements left of the target. -/
def filepathRel (basepath targpath : String) : Except Error String :=
  let base := cleanParts basepath
  let targ := cleanParts targpath
  let fail : Except Error String :=
    .error ("Rel: can't make " ++ targpath ++ " relative to " ++ basepath)
  if base = targ then .ok "."
  else if base.1 != targ.1 then fail
  else
    match dropCommon base.2 targ.2 with
    | (b :: bs, t :: ts) =>
      if b = ['.', '.'] then fail
      else .ok (String.mk (joinSep ((b :: bs).map (fun _ => ['.', '.']) ++ t :: ts)))
    | (bs, ts) => .ok (String.mk (joinSep (bs.map (fun _ => ['.', '.']) ++ ts)))

/-- The machine of `exOS` with `filepath.Rel` and `filepath.Join` as in the package,
and a git repository at `/repo`, however the root is written. -/
def unixOS : OS :=
  { exOS [] with
    Rel := filepathRel
    Join := filepathJoin
    PlainOpen := fun p =>
      if filepathClean p == "/repo" then .ok { Index := .ok exIndex }
      else .error "repository does not exist" }

/-- A context that is cancelled before `Walk` is called. -/
def exCancelled : Context := { Done := fun _ => true, Err := "context canceled" }

/-- The git walker `NewGit` builds for the root written `/repo/`, with a separator at
its end, and that root as the only element of its channel. -/
def exGitSlash : gitWalker :=
  { root := "/repo/", paths := ["/repo/"], repo := { Index := .ok exIndex },
    allFiles := true, relPathOffset := "/repo/".length + 1 }

/-- The file `run.sh` on disk: a regular file of 20 bytes with the execute bits set,
modified at `exT900`. -/
def exInfoRun : FileInfo := { size := 20, mode := 0o755, modTime := exT900 }

/-- The file `run.sh` as the git walker emits it for the subpath `/repo/run.sh`. -/
def exFileRun : File := { Path := "/repo/run.sh", RelPath := "run.sh", Info := exInfoRun }

/-- The machine of `exOS` with the tracked executable `run.sh` in `/repo`. -/
def exExecOS : OS :=
  { exOS [] with
    Lstat := fun p =>
      if p == "/repo/run.sh" then .ok exInfoRun else (exOS []).Lstat p
    Walk := fun p =>
      if p == "/repo/run.sh" then [⟨"/repo/run.sh", some exInfoRun, none⟩]
      else (exOS []).Walk p }

/-- An index that holds `a.txt` (mode 0100644) and the executable `run.sh` (mode
0100755), the latter recorded in the second before the one it has on disk. -/
def exExecIndex : List IndexEntry :=
  [{ Name := "a.txt", Mode := 0o100644, ModifiedAt := exT100 },
   { Name := "run.sh", Mode := 0o100755, ModifiedAt := exOld }]

/-- The git walker for `/repo` over `exExecIndex`, as `NewGit` builds it. -/
def exExecGit (allFiles : Bool) (paths : List String) : gitWalker :=
  { root := "/repo", paths := paths, repo := { Index := .ok exExecIndex },
    allFiles := allFiles, relPathOffset := "/repo".length + 1 }

/-! ## Lemmas on traces -/

theorem fnCalls_append (a b : List Event) : fnCalls (a ++ b) = fnCalls a ++ fnCalls b := by
  induction a with
  | nil => rfl
  | cons e rest ih => cases e <;> simp [fnCalls, ih]

theorem beginCount_append (a b : List Event) :
    beginCount (a ++ b) = beginCount a + beginCount b := by
  induction a with
  | nil => simp [beginCount]
  | cons e rest ih =>
    cases e with
    | beginRead r => cases r <;> simp [beginCount, ih, Nat.add_right_comm]
    | _ => simp [beginCount, ih]

theorem rollbackCount_append (a b : List Event) :
    rollbackCount (a ++ b) = rollbackCount a + rollbackCount b := by
  induction a with
  | nil => simp [rollbackCount]
  | cons e rest ih => cases e <;> simp [rollbackCount, ih, Nat.add_right_comm]

theorem Rollback_nil (tx : Tx) : tx.Rollback = none := by
  cases tx <;> rfl

/-- What `walkFnTail` does, by cases on the comparison: the result and the files
`fn` has been invoked with. -/
theorem walkFnTail_fnCalls (fn : WalkFunc) (batchSize : Nat) (s : WalkState) (tx : Tx)
    (file : File) (cached : Option Entry) :
    (changedOrNew cached file.Info = true →
      fnCalls (walkFnTail fn batchSize s tx file cached).2.trace = fnCalls s.trace ++ [file] ∧
      (walkFnTail fn batchSize s tx file cached).1 = .ret (fn file none)) ∧
    (changedOrNew cached file.Info = false →
      fnCalls (walkFnTail fn batchSize s tx file cached).2.trace = fnCalls s.trace ∧
      (walkFnTail fn batchSize s tx file cached).1 = .ret none) := by
  constructor <;> intro h <;> by_cases hb : s.processed + 1 = batchSize <;>
    simp [walkFnTail, h, hb, Rollback_nil, fnCalls_append, fnCalls]

/-- The comparison `changedOrNew`, spelled out. -/
theorem changedOrNew_iff (cached : Option Entry) (info : FileInfo) :
    changedOrNew cached info = true ↔
      (cached = none ∨
        ∃ c, cached = some c ∧ (c.Size ≠ info.Size ∨ c.Modified ≠ info.ModTime)) := by
  cases cached with
  | none => simp [changedOrNew]
  | some c =>
    simp only [changedOrNew, Bool.not_eq_true', Bool.and_eq_false_imp, beq_iff_eq, reduceCtorEq,
      Option.some.injEq, exists_eq_left', false_or, beq_eq_false_iff_ne]
    tauto

/-- The step `walkFn` on a regular file whose relative path is `p` and whose cache
lookup (through the transaction in use, or a freshly opened one) returns `cached`:
it behaves as `walkFnTail` does, up to the calls recorded before the comparison. -/
theorem walkFn_regular (f : filesystemWalker) (os : OS) (fn : WalkFunc) (batchSize : Nat)
    (s : WalkState) (path p : String) (info : FileInfo) (err : Option Error) (tx : Tx)
    (cached : Option Entry)
    (hdir : info.IsDir = false)
    (hsym : (info.Mode &&& ModeSymlink == ModeSymlink) = false)
    (hrel : f.relPath os path = .ok p)
    (htx : s.tx = some tx ∨ (s.tx = none ∧ f.cache.BeginRead = .ok tx))
    (hget : f.cache.GetPath tx p = .ok cached) :
    ∃ s0 : WalkState, fnCalls s0.trace = fnCalls s.trace ∧ s0.processed = s.processed ∧
      walkFn f os fn batchSize s path (some info) err
        = walkFnTail fn batchSize s0 tx ⟨path, p, info⟩ cached := by
  rcases htx with h | ⟨h, hb⟩
  · refine ⟨{ s with trace := s.trace ++ [.getPath tx p] }, ?_, rfl, ?_⟩
    · simp [fnCalls_append, fnCalls]
    · simp [walkFn, hdir, hsym, hrel, h, hget]
  · refine ⟨{ s with tx := some tx,
                     trace := s.trace ++ [.beginRead (.ok tx)] ++ [.getPath tx p] }, ?_, rfl, ?_⟩
    · simp [fnCalls_append, fnCalls]
    · simp [walkFn, hdir, hsym, hrel, h, hb, hget]

/-- C1. The per-file step of the filesystem walker. For a regular, non-symlink file
at `path` with relative path `p` whose cache lookup succeeds with `cached`: when no
Entry is cached, or the cached size differs from the size on disk, or the cached
modification time differs from the one on disk, `fn` is invoked exactly once, with
that file, and the step returns what `fn` returned; otherwise `fn` is not invoked and
the step returns nil. For a directory or a symlink the step returns nil with the
state, and so the calls made, unchanged. -/
theorem walkFn_emits_iff_changedOrNew (f : filesystemWalker) (os : OS) (fn : WalkFunc)
    (batchSize : Nat) (s : WalkState) (path p : String) (info : FileInfo)
    (err : Option Error) (tx : Tx) (cached : Option Entry)
    (hdir : info.IsDir = false)
    (hsym : (info.Mode &&& ModeSymlink == ModeSymlink) = false)
    (hrel : f.relPath os path = .ok p)
    (htx : s.tx = some tx ∨ (s.tx = none ∧ f.cache.BeginRead = .ok tx))
    (hget : f.cache.GetPath tx p = .ok cached) :
    ((cached = none ∨
        ∃ c, cached = some c ∧ (c.Size ≠ info.Size ∨ c.Modified ≠ info.ModTime)) →
      fnCalls (walkFn f os fn batchSize s path (some info) err).2.trace
          = fnCalls s.trace ++ [⟨path, p, info⟩] ∧
        (walkFn f os fn batchSize s path (some info) err).1
          = .ret (fn ⟨path, p, info⟩ none)) ∧
    (¬ (cached = none ∨
        ∃ c, cached = some c ∧ (c.Size ≠ info.Size ∨ c.Modified ≠ info.ModTime)) →
      fnCalls (walkFn f os fn batchSize s path (some info) err).2.trace = fnCalls s.trace ∧
        (walkFn f os fn batchSize s path (some info) err).1 = .ret none) ∧
    (∀ (d : FileInfo) (e : Option Error),
      (d.IsDir = true ∨ (d.Mode &&& ModeSymlink == ModeSymlink) = true) →
      walkFn f os fn batchSize s path (some d) e = (.ret none, s)) := by
  obtain ⟨s0, h0, _, hstep⟩ :=
    walkFn_regular f os fn batchSize s path p info err tx cached hdir hsym hrel htx hget
  have htail := walkFnTail_fnCalls fn batchSize s0 tx ⟨path, p, info⟩ cached
  rw [hstep, ← h0]
  refine ⟨fun hc => htail.1 ((changedOrNew_iff cached info).2 hc), fun hc => htail.2 ?_, ?_⟩
  · cases hv : changedOrNew cached info with
    | false => rfl
    | true => exact absurd ((changedOrNew_iff cached info).1 hv) hc
  · intro d e hd
    rcases hd with hd | hd <;> simp [walkFn, hd]

/-- C1 at `a.txt` of the example, over a store that recorded another modification
time: the hypotheses hold there and `fn` is invoked once, with `a.txt`. -/
theorem walkFn_emits_iff_changedOrNew_witness :
    fnCalls (walkFn (exFsWalker exStored) (exOS exStored) fnOk 1024
        { tx := none, processed := 0, trace := [] } "/repo/a.txt" (some exInfoA) none).2.trace
      = [exFileA] :=
  ((walkFn_emits_iff_changedOrNew (exFsWalker exStored) (exOS exStored) fnOk 1024
      { tx := none, processed := 0, trace := [] } "/repo/a.txt" "a.txt" exInfoA none
      (.boltTx { writable := false, paths := exStored })
      (some { Size := 100, Modified := exT100 })
      (by decide) (by decide) (by decide) (Or.inr ⟨rfl, rfl⟩) rfl).1
    (Or.inr ⟨_, rfl, Or.inr (by decide)⟩)).1

/-! ## C2: `UpdatePaths` over the persistent cache -/

/-- Over an open persistent store, `UpdatePaths` of a batch that is not empty fails
on its first file and leaves the store as it was: `Update` hands the closure a
`*boltTx`, which `unwrapTx` does not accept. -/
theorem UpdatePaths_bolt_error (root : String) (paths : List String) (off : Nat)
    (db : BoltDB) (file : File) (rest : List File) (hopen : db.opened = true) :
    filesystemWalker.UpdatePaths
        { root := root, cache := .BoltCache db, pathsCh := paths, relPathOffset := off }
        (file :: rest)
      = (some ("failed to update paths: " ++ wrongTx), .BoltCache db) := by
  simp [filesystemWalker.UpdatePaths, Cache.Update, BoltDB.Update, hopen, updateLoop,
    Cache.UpdatePath, BoltCache.unwrapTx]

/-- C2 (the code at the failing input). On a fresh persistent cache, `UpdatePaths` of
the batch `a.txt`, `b.txt` returns the error of the transaction type check; the cache
afterwards is the empty one it was; `GetPath` of `a.txt` in a new read transaction
finds no Entry; and a second `Walk` emits both files again. -/
theorem UpdatePaths_bolt_stores_nothing :
    (exFsWalker []).UpdatePaths [exFileA, exFileB]
      = (some "failed to update paths: tx must be of type NoOpTx",
         .BoltCache { opened := true, paths := [] }) ∧
    ((exFsWalker []).UpdatePaths [exFileA, exFileB]).2.BeginRead
      = .ok (.boltTx { writable := false, paths := [] }) ∧
    ((exFsWalker []).UpdatePaths [exFileA, exFileB]).2.GetPath
        (.boltTx { writable := false, paths := [] }) "a.txt" = .ok none ∧
    fnCalls (filesystemWalker.Walk
        { exFsWalker [] with cache := ((exFsWalker []).UpdatePaths [exFileA, exFileB]).2 }
        (exOS []) exCtx fnOk).2.trace = [exFileA, exFileB] :=
  ⟨rfl, rfl, rfl, by decide⟩

/-! ## C3: the comparison of modification times -/

/-- C3 (counterexample). The store recorded `a.txt` with its present size and with a
modification time 800 milliseconds before the present one, in the same second: the
two times are equal once truncated to the second, and `Walk` emits `a.txt` (and not
`b.txt`, recorded as it is on disk). -/
theorem Walk_emits_on_subsecond_change :
    (exFsWalker exStored).cache.GetPath (.boltTx { writable := false, paths := exStored })
        "a.txt" = .ok (some { Size := 100, Modified := exT100 }) ∧
    exInfoA.Size = 100 ∧
    exT100.Truncate Second = exInfoA.ModTime.Truncate Second ∧
    fnCalls ((exFsWalker exStored).Walk (exOS exStored) exCtx fnOk).2.trace = [exFileA] :=
  ⟨rfl, by decide, by decide, by decide⟩

/-- C3 (amended). For a regular file whose cached Entry `c` has the size found on
disk: when the cached modification time is the very instant found on disk, `fn` is
not invoked and the step returns nil; when it is another instant, however close,
`fn` is invoked once with the file. -/
theorem walkFn_skips_iff_same_instant (f : filesystemWalker) (os : OS) (fn : WalkFunc)
    (batchSize : Nat) (s : WalkState) (path p : String) (info : FileInfo)
    (err : Option Error) (tx : Tx) (c : Entry)
    (hdir : info.IsDir = false)
    (hsym : (info.Mode &&& ModeSymlink == ModeSymlink) = false)
    (hrel : f.relPath os path = .ok p)
    (htx : s.tx = some tx ∨ (s.tx = none ∧ f.cache.BeginRead = .ok tx))
    (hget : f.cache.GetPath tx p = .ok (some c))
    (hsize : c.Size = info.Size) :
    (c.Modified = info.ModTime →
      fnCalls (walkFn f os fn batchSize s path (some info) err).2.trace = fnCalls s.trace ∧
        (walkFn f os fn batchSize s path (some info) err).1 = .ret none) ∧
    (c.Modified ≠ info.ModTime →
      fnCalls (walkFn f os fn batchSize s path (some info) err).2.trace
        = fnCalls s.trace ++ [⟨path, p, info⟩]) := by
  obtain ⟨s0, h0, _, hstep⟩ :=
    walkFn_regular f os fn batchSize s path p info err tx (some c) hdir hsym hrel htx hget
  have htail := walkFnTail_fnCalls fn batchSize s0 tx ⟨path, p, info⟩ (some c)
  rw [hstep, ← h0]
  constructor
  · intro hm
    exact htail.2 (by simp [changedOrNew, hm, hsize])
  · intro hm
    exact (htail.1 (by simp [changedOrNew, hm])).1

/-- C3 (amended) at `b.txt` of the example, recorded as it is on disk: the hypotheses
hold there and `fn` is not invoked. -/
theorem walkFn_skips_iff_same_instant_witness :
    fnCalls (walkFn (exFsWalker exStored) (exOS exStored) fnOk 1024
        { tx := none, processed := 0, trace := [] } "/repo/b.txt" (some exInfoB) none).2.trace
      = [] :=
  ((walkFn_skips_iff_same_instant (exFsWalker exStored) (exOS exStored) fnOk 1024
      { tx := none, processed := 0, trace := [] } "/repo/b.txt" "b.txt" exInfoB none
      (.boltTx { writable := false, paths := exStored }) { Size := 50, Modified := exT900 }
      (by decide) (by decide) (by decide) (Or.inr ⟨rfl, rfl⟩) rfl (by decide)).1
    (by decide)).1

/-! ## C5: the git walker and the elements of its channel -/

/-- Once an element other than the root is found in the index, `gitWalker.Walk`
returns what the traversal of that element returns: the elements after it play no
part in the result. -/
theorem gitPaths_returns_after_subpath (g : gitWalker) (os : OS) (ctx : Context)
    (fn : WalkFunc) (idx : List IndexEntry) (path rel : String) (rest rest2 : List String)
    (s : GitState) (hroot : (path == g.root) = false)
    (hrel : os.Rel g.root path = .ok rel)
    (hidx : (mapGet (match s.cache with | some c => c | none => buildCache idx) rel).isSome
      = true) :
    gitPaths g os ctx fn idx (path :: rest) s = gitPaths g os ctx fn idx (path :: rest2) s := by
  simp [gitPaths, hroot, hrel, hidx]

/-- C5 (the code at the failing input). With `allFiles` set and the channel holding
`/repo/a.txt` then `/repo/b.txt`, both in the index: `Walk` returns nil having emitted
`a.txt` only, while each element walked alone emits its file. -/
theorem gitWalk_stops_after_first_subpath :
    ((exGit true ["/repo/a.txt", "/repo/b.txt"]).Walk (exOS []) exCtx fnOk).1 = .ret none ∧
    fnCalls ((exGit true ["/repo/a.txt", "/repo/b.txt"]).Walk (exOS []) exCtx fnOk).2.trace
      = [exFileA] ∧
    fnCalls ((exGit true ["/repo/a.txt"]).Walk (exOS []) exCtx fnOk).2.trace = [exFileA] ∧
    fnCalls ((exGit true ["/repo/b.txt"]).Walk (exOS []) exCtx fnOk).2.trace = [exFileB] ∧
    NewGit (exOS []) "/repo" true ["/repo/a.txt", "/repo/b.txt"]
      = .ok (exGit true ["/repo/a.txt", "/repo/b.txt"]) :=
  ⟨by decide, by decide, by decide, by decide, rfl⟩

/-! ## C7: opening the persistent cache with `clear` -/

/-- Whenever the store file can be resolved and opened, `NewBoltCache` with `clear`
set fails: `RemoveAllPaths` is handed the `*bolt.Tx` itself, which `unwrapTx` does
not accept. -/
theorem NewBoltCache_clear_error (os : OS) (treeRoot file : String) (db : BoltDB)
    (hfile : os.CacheFile ("treefmt/eval-cache/" ++ os.sha1Hex treeRoot ++ ".db") = .ok file)
    (hdb : os.boltOpen file = .ok db) (hopen : db.opened = true) :
    NewBoltCache os treeRoot true = .error ("failed to clear paths: " ++ wrongTx) := by
  simp [NewBoltCache, hfile, hdb, BoltDB.Update, hopen, Cache.RemoveAllPaths,
    BoltCache.unwrapTx]

/-- C7 (the code at the failing input). Over a store that holds Entries for `a.txt`
and `b.txt`, `NewBoltCache` with `clear` set returns no cache but the error of the
transaction type check; without `clear` it returns the cache over the store. -/
theorem NewBoltCache_clear_fails :
    NewBoltCache (exOS exStored) "/repo" true
      = .error "failed to clear paths: tx must be of type NoOpTx" ∧
    NewBoltCache (exOS exStored) "/repo" false
      = .ok (.BoltCache { opened := true, paths := exStored }) :=
  ⟨rfl, rfl⟩

/-! ## C8: the traversal callbacks and I/O errors -/

/-- C8 (the code at the failing inputs). The callback of the filesystem walker, given
a directory that could not be read (its info and the error), returns nil and the
state unchanged, and a `Walk` over such a root returns nil; given a nil info it returns
an error. The callback of the git walker, given a nil info, panics, and so does a
`Walk` over a subpath that is in the index and gone from disk. -/
theorem callbacks_on_io_error :
    (walkFn (exFsWalker []) exDeniedOS fnOk 1024 { tx := none, processed := 0, trace := [] }
        "/repo" (some exDirInfo) (some "open /repo: permission denied")).1 = .ret none ∧
    ((exFsWalker []).Walk exDeniedOS exCtx fnOk).1 = .ret none ∧
    (walkFn (exFsWalker []) exGoneOS fnOk 1024 { tx := none, processed := 0, trace := [] }
        "/repo/a.txt" none (some "lstat /repo/a.txt: no such file or directory")).1
      = .ret (some "no such file or directory '/repo/a.txt'") ∧
    (gitWalkFn (exGit false ["/repo/a.txt"]) exGoneOS fnOk (buildCache exIndex)
        { cache := none, polls := 0, trace := [] }
        "/repo/a.txt" none (some "lstat /repo/a.txt: no such file or directory")).1
      = .panic "invalid memory address or nil pointer dereference" ∧
    ((exGit false ["/repo/a.txt"]).Walk exGoneOS exCtx fnOk).1
      = .panic "invalid memory address or nil pointer dereference" :=
  ⟨by decide, by decide, by decide, by decide, by decide⟩

/-! ## C10: read transactions left open -/

/-- C10 (the code at the failing input). A `Walk` over `/repo` with the persistent
cache returns nil having called `BeginRead` once and `Rollback` never: the read
transaction is still held when `Walk` returns. The same holds when `Walk` returns the
error of a failing `fn`. -/
theorem Walk_leaves_read_tx_open :
    ((exFsWalker exStored).Walk (exOS exStored) exCtx fnOk).1 = .ret none ∧
    beginCount ((exFsWalker exStored).Walk (exOS exStored) exCtx fnOk).2.trace = 1 ∧
    rollbackCount ((exFsWalker exStored).Walk (exOS exStored) exCtx fnOk).2.trace = 0 ∧
    ((exFsWalker exStored).Walk (exOS exStored) exCtx fnOk).2.tx
      = some (.boltTx { writable := false, paths := exStored }) ∧
    ((exFsWalker exStored).Walk (exOS exStored) exCtx fnFail).1 = .ret (some "formatter failed") ∧
    beginCount ((exFsWalker exStored).Walk (exOS exStored) exCtx fnFail).2.trace = 1 ∧
    rollbackCount ((exFsWalker exStored).Walk (exOS exStored) exCtx fnFail).2.trace = 0 :=
  ⟨by decide, by decide, by decide, by decide, by decide, by decide, by decide⟩

/-! ## C9: the rotation of the read transaction -/

theorem lookupRuns_append (a b : List Event) (run best : Nat) :
    lookupRuns run best (a ++ b)
      = lookupRuns (lookupRuns run best a).1 (lookupRuns run best a).2 b := by
  induction a generalizing run best with
  | nil => rfl
  | cons e rest ih => cases e <;> simp [lookupRuns, ih]

/-- The second half of `walkFn` keeps the bookkeeping `Rotation`, when `fn` accepts
the file: `k` is the number of files processed before this one. -/
theorem walkFnTail_rotation (fn : WalkFunc) (N : Nat) (s : WalkState) (tx0 : Tx)
    (file : File) (cached : Option Entry) (k : Nat) (hN : 0 < N)
    (hfn : ∀ file, fn file none = none)
    (hk : s.processed = k)
    (htx : s.tx = some tx0)
    (hb : beginCount s.trace = (if k + 1 ≤ N then 1 else 2))
    (hr : rollbackCount s.trace = (if N ≤ k then 1 else 0))
    (hl : lookupRuns 0 0 s.trace = (if k + 1 ≤ N then (k + 1, 0) else (k + 1 - N, N))) :
    (walkFnTail fn N s tx0 file cached).1 = .ret none ∧
    Rotation N tx0 (walkFnTail fn N s tx0 file cached).2 ∧
    (walkFnTail fn N s tx0 file cached).2.processed = k + 1 := by
  subst hk
  by_cases hN1 : s.processed + 1 = N
  · have h2 : ¬ (N ≤ s.processed) := by omega
    have h3 : s.processed + 1 ≤ N := by omega
    have hN0 : N ≠ 0 := by omega
    simp only [h2, h3, if_true, if_false] at hb hr hl
    cases hco : changedOrNew cached file.Info <;>
      simp [walkFnTail, hN1, Rollback_nil, hfn, hco, Rotation, beginCount_append,
        rollbackCount_append, lookupRuns_append, hb, hr, hl, beginCount, rollbackCount,
        lookupRuns, hN0]
  · have h3 : (s.processed + 1 == N) = false := by simpa using hN1
    cases hco : changedOrNew cached file.Info <;>
      simp [walkFnTail, h3, hfn, hco, Rotation, beginCount_append,
        rollbackCount_append, lookupRuns_append, hb, hr, hl, beginCount, rollbackCount,
        lookupRuns, htx] <;>
      (refine ⟨hN1, ?_, ?_⟩ <;> split_ifs <;> first | rfl | omega)

/-- One invocation of `walkFn` keeps the bookkeeping `Rotation`, when the cache
answers every lookup and `fn` accepts every file. -/
theorem walkFn_rotation (f : filesystemWalker) (os : OS) (fn : WalkFunc) (N : Nat)
    (s : WalkState) (v : Visit) (tx0 : Tx) (hN : 0 < N)
    (hbegin : f.cache.BeginRead = .ok tx0)
    (hget : ∀ p, ∃ c, f.cache.GetPath tx0 p = .ok c)
    (hfn : ∀ file, fn file none = none)
    (hv : v.plain f os = true) (hs : Rotation N tx0 s) :
    (walkFn f os fn N s v.path v.info v.err).1 = .ret none ∧
    Rotation N tx0 (walkFn f os fn N s v.path v.info v.err).2 ∧
    (walkFn f os fn N s v.path v.info v.err).2.processed
      = s.processed + regularCount [v] := by
  have hcases : ∃ info, v.info = some info ∧
      ((info.IsDir || (info.Mode &&& ModeSymlink == ModeSymlink)) = true ∨
        ((info.IsDir || (info.Mode &&& ModeSymlink == ModeSymlink)) = false ∧
          ∃ p, f.relPath os v.path = .ok p)) := by
    unfold Visit.plain at hv
    cases hinfo : v.info with
    | none => simp [hinfo] at hv
    | some info =>
      refine ⟨info, rfl, ?_⟩
      cases hskip : (info.IsDir || (info.Mode &&& ModeSymlink == ModeSymlink)) with
      | true => exact Or.inl rfl
      | false =>
        refine Or.inr ⟨rfl, ?_⟩
        cases hp : f.relPath os v.path with
        | ok p => exact ⟨p, rfl⟩
        | err e => simp [hinfo, hskip, hp] at hv
        | panic m => simp [hinfo, hskip, hp] at hv
  obtain ⟨info, hinfo, hcase⟩ := hcases
  rcases hcase with hskip | ⟨hreg, p, hp⟩
  · simp [walkFn, hinfo, hskip, regularCount, hs]
  · obtain ⟨c, hc⟩ := hget p
    obtain ⟨htx, hnone, hb, hr, hl⟩ := hs
    have hcount : regularCount [v] = 1 := by simp [regularCount, hinfo, hreg]
    rw [hcount]
    rcases htx with h | h
    · have hk := hnone.1 h
      have hstep : walkFn f os fn N s v.path v.info v.err
          = walkFnTail fn N
              ⟨some tx0, s.processed, s.trace ++ [.beginRead (.ok tx0)] ++ [.getPath tx0 p]⟩
              tx0 ⟨v.path, p, info⟩ c := by
        simp [walkFn, hinfo, hreg, hp, h, hbegin, hc]
      rw [hstep]
      refine walkFnTail_rotation fn N
        ⟨some tx0, s.processed, s.trace ++ [.beginRead (.ok tx0)] ++ [.getPath tx0 p]⟩
        tx0 _ c s.processed hN hfn rfl rfl ?_ ?_ ?_
      · rw [beginCount_append, beginCount_append, hb]
        rcases hk with hk | hk <;> simp only [hk, beginCount] <;> split_ifs <;> omega
      · rw [rollbackCount_append, rollbackCount_append, hr]
        simp [rollbackCount]
      · rw [lookupRuns_append, lookupRuns_append, hl]
        rcases hk with hk | hk <;> simp only [hk, lookupRuns] <;> split_ifs <;>
          first | rfl | omega | simp
    · have hk : ¬ (s.processed = 0 ∨ s.processed = N) := by
        intro hk
        rw [hnone.2 hk] at h
        cases h
      have hstep : walkFn f os fn N s v.path v.info v.err
          = walkFnTail fn N ⟨s.tx, s.processed, s.trace ++ [.getPath tx0 p]⟩
              tx0 ⟨v.path, p, info⟩ c := by
        simp [walkFn, hinfo, hreg, hp, h, hc]
      rw [hstep]
      refine walkFnTail_rotation fn N ⟨s.tx, s.processed, s.trace ++ [.getPath tx0 p]⟩
        tx0 _ c s.processed hN hfn rfl h ?_ ?_ ?_
      · rw [beginCount_append, hb]
        simp only [beginCount]
        split_ifs <;> omega
      · rw [rollbackCount_append, hr]
        simp [rollbackCount]
      · rw [lookupRuns_append, hl]
        split_ifs <;> simp [lookupRuns] <;> omega

/-- A traversal whose visits `walkFn` gets through keeps the bookkeeping `Rotation`
and counts every regular file. -/
theorem filepathWalk_rotation (f : filesystemWalker) (os : OS) (fn : WalkFunc) (N : Nat)
    (tx0 : Tx) (hN : 0 < N)
    (hbegin : f.cache.BeginRead = .ok tx0)
    (hget : ∀ p, ∃ c, f.cache.GetPath tx0 p = .ok c)
    (hfn : ∀ file, fn file none = none)
    (visits : List Visit) (hv : ∀ v ∈ visits, v.plain f os = true)
    (s : WalkState) (hs : Rotation N tx0 s) :
    (filepathWalk (walkFn f os fn N) visits s).1 = .ret none ∧
    Rotation N tx0 (filepathWalk (walkFn f os fn N) visits s).2 ∧
    (filepathWalk (walkFn f os fn N) visits s).2.processed
      = s.processed + regularCount visits := by
  induction visits generalizing s with
  | nil => simp [filepathWalk, regularCount, hs]
  | cons v rest ih =>
    obtain ⟨h1, h2, h3⟩ :=
      walkFn_rotation f os fn N s v tx0 hN hbegin hget hfn (hv v (by simp)) hs
    have hrest := ih (fun w hw => hv w (by simp [hw])) _ h2
    have hstep : filepathWalk (walkFn f os fn N) (v :: rest) s
        = filepathWalk (walkFn f os fn N) rest (walkFn f os fn N s v.path v.info v.err).2 := by
      generalize hout : walkFn f os fn N s v.path v.info v.err = out at h1
      obtain ⟨r, s1⟩ := out
      simp only at h1
      subst h1
      simp [filepathWalk, hout]
    rw [hstep]
    refine ⟨hrest.1, hrest.2.1, ?_⟩
    rw [hrest.2.2, h3]
    have : regularCount (v :: rest) = regularCount [v] + regularCount rest := by
      simp only [regularCount]
      split
      · simp
      · split <;> omega
    omega

/-- The number of regular files `Walk` comes across on the elements of its channel. -/
theorem walkPaths_rotation (f : filesystemWalker) (os : OS) (fn : WalkFunc) (N : Nat)
    (tx0 : Tx) (hN : 0 < N)
    (hbegin : f.cache.BeginRead = .ok tx0)
    (hget : ∀ p, ∃ c, f.cache.GetPath tx0 p = .ok c)
    (hfn : ∀ file, fn file none = none)
    (paths : List String) (hv : ∀ path ∈ paths, ∀ v ∈ os.Walk path, v.plain f os = true)
    (s : WalkState) (hs : Rotation N tx0 s) :
    (walkPaths f os fn N paths s).1 = .ret none ∧
    Rotation N tx0 (walkPaths f os fn N paths s).2 ∧
    (walkPaths f os fn N paths s).2.processed
      = s.processed + (paths.map (fun path => regularCount (os.Walk path))).sum := by
  induction paths generalizing s with
  | nil => simp [walkPaths, hs]
  | cons path rest ih =>
    obtain ⟨h1, h2, h3⟩ := filepathWalk_rotation f os fn N tx0 hN hbegin hget hfn
      (os.Walk path) (hv path (by simp)) s hs
    have hrest := ih (fun q hq => hv q (by simp [hq])) _ h2
    have hstep : walkPaths f os fn N (path :: rest) s
        = walkPaths f os fn N rest (filepathWalk (walkFn f os fn N) (os.Walk path) s).2 := by
      generalize hout : filepathWalk (walkFn f os fn N) (os.Walk path) s = out at h1
      obtain ⟨r, s1⟩ := out
      simp only at h1
      subst h1
      simp [walkPaths, hout]
    rw [hstep]
    refine ⟨hrest.1, hrest.2.1, ?_⟩
    rw [hrest.2.2, h3]
    simp only [List.map_cons, List.sum_cons]
    omega

/-- The fast path of `relPath`: for a walker built with `relPathOffset = len(root) + 1`,
the path `root/name` has the relative path `name`. -/
theorem relPath_below (root name : String) (os : OS) :
    relPath root (root.length + 1) os (root ++ "/" ++ name) = .ok name := by
  have hlen : (root ++ "/" ++ name).length = root.length + 1 + name.length := by
    simp only [String.length_append]
    rfl
  have hdata : (root ++ "/" ++ name).data = root.data ++ ('/' :: name.data) := by
    simp [String.data_append]
  have htake : List.take root.length (root.data ++ ('/' :: name.data)) = root.data := by
    rw [String.length, List.take_left']
    rfl
  have hdrop : List.drop (root.length + 1) (root.data ++ ('/' :: name.data)) = name.data := by
    rw [String.length, List.drop_append_eq_append_drop]
    simp
  unfold relPath
  rw [hlen, hdata, htake, hdrop]
  have h1 : root.length + 1 + name.length ≥ root.length + 1 := by omega
  have h2 : ¬ (root.length > root.length + 1 + name.length) := by omega
  simp [h1, h2]

theorem flatTree_plain (n : Nat) (cache : Cache) (paths : List String) :
    ∀ v ∈ flatTree n, v.plain (NewFilesystem "/repo" cache paths) (flatOS n) = true := by
  intro v hv
  simp only [flatTree, List.mem_cons, List.mem_map, List.mem_range] at hv
  rcases hv with hv | ⟨i, _, hv⟩
  · subst hv
    rfl
  · subst hv
    have hrel : (NewFilesystem "/repo" cache paths).relPath (flatOS n)
        ("/repo" ++ "/" ++ toString i) = .ok (toString i) :=
      relPath_below "/repo" _ _
    simp only [Visit.plain, hrel, Bool.or_true]

theorem regularCount_flatTree (n : Nat) : regularCount (flatTree n) = n := by
  have h : ∀ (g : Nat → String) (l : List Nat), regularCount (l.map
      (fun i => (⟨g i, some exInfoA, none⟩ : Visit))) = l.length := by
    intro g l
    induction l with
    | nil => rfl
    | cons a rest ih =>
      have hreg : (exInfoA.IsDir || (exInfoA.Mode &&& ModeSymlink == ModeSymlink)) = false := by
        decide
      simp [regularCount, ih, hreg]
  have hdir : (exDirInfo.IsDir || (exDirInfo.Mode &&& ModeSymlink == ModeSymlink)) = true := by
    decide
  simp [flatTree, regularCount, hdir, h]

/-- C9 (the code at the failing input). One CPU, so a batch size of 1024; a fresh
persistent cache; a tree of 2049 regular files. `Walk` returns nil having processed
the 2049 files, with a single `Rollback` (after the 1024th file; none after the
2048th), two transactions opened, and one transaction that served 1025 lookups. -/
theorem Walk_rolls_back_once :
    ((exFsWalker []).Walk (flatOS 2049) exCtx fnOk).1 = .ret none ∧
    ((exFsWalker []).Walk (flatOS 2049) exCtx fnOk).2.processed = 2049 ∧
    rollbackCount ((exFsWalker []).Walk (flatOS 2049) exCtx fnOk).2.trace = 1 ∧
    beginCount ((exFsWalker []).Walk (flatOS 2049) exCtx fnOk).2.trace = 2 ∧
    maxLookupsPerTx ((exFsWalker []).Walk (flatOS 2049) exCtx fnOk).2.trace = 1025 := by
  have hget : ∀ p : String, ∃ c, (exFsWalker []).cache.GetPath
      (.boltTx { writable := false, paths := [] }) p = .ok c :=
    fun p => ⟨none, rfl⟩
  have hstart : Rotation 1024 (.boltTx { writable := false, paths := [] })
      { tx := none, processed := 0, trace := [] } := by
    simp [Rotation, beginCount, rollbackCount, lookupRuns]
  obtain ⟨h1, h2, h3⟩ := walkPaths_rotation (exFsWalker []) (flatOS 2049) fnOk 1024
    (.boltTx { writable := false, paths := [] }) (by decide) rfl hget (fun _ => rfl)
    ["/repo"] (by
      intro path _ v hv
      exact flatTree_plain 2049 _ _ v hv) _ hstart
  have hwalk : (exFsWalker []).Walk (flatOS 2049) exCtx fnOk
      = walkPaths (exFsWalker []) (flatOS 2049) fnOk 1024 ["/repo"]
          { tx := none, processed := 0, trace := [] } := rfl
  rw [hwalk]
  have hcount : (walkPaths (exFsWalker []) (flatOS 2049) fnOk 1024 ["/repo"]
      { tx := none, processed := 0, trace := [] }).2.processed = 2049 := by
    rw [h3]
    simp [flatOS, regularCount_flatTree]
  obtain ⟨_, _, hb, hr, hl⟩ := h2
  rw [hcount] at hb hr hl
  refine ⟨h1, hcount, ?_, ?_, ?_⟩
  · rw [hr]; rfl
  · rw [hb]; rfl
  · simp [maxLookupsPerTx, hl]

/-! ## C4: the git walker on the root element -/

/-- The closure `hasChanged`, spelled out. -/
theorem hasChanged_iff (g : gitWalker) (entry : IndexEntry) (info : FileInfo) :
    hasChanged g entry info = true ↔
      (g.allFiles = true ∨
        entry.ModifiedAt.Truncate Second ≠ info.ModTime.Truncate Second) := by
  unfold hasChanged
  cases g.allFiles <;> simp

/-- The body of the loop over the index, for the root element, with the context not
cancelled. For an entry whose mode passes `IsRegular` (0100644 or 0100664), found on
disk by `Lstat` with `info`, with relative path `p`: when `allFiles` is set or the
modification time of the index and that of the disk differ once both are truncated
to the second, `fn` is invoked exactly once, with that file; otherwise `fn` is not
invoked and the loop goes on. For an entry of any other mode, that of a tracked
executable (0100755) included, `fn` is not invoked, in any state. -/
theorem indexEntry_emits_iff_hasChanged (g : gitWalker) (os : OS) (ctx : Context)
    (fn : WalkFunc) (s : GitState) (entry : IndexEntry) (info : FileInfo) (p : String)
    (hctx : ctx.Done s.polls = false)
    (hreg : FileModeIsRegular entry.Mode = true)
    (hstat : os.Lstat (os.Join g.root entry.Name) = .ok info)
    (hrel : g.relPath os (os.Join g.root entry.Name) = .ok p) :
    ((g.allFiles = true ∨
        entry.ModifiedAt.Truncate Second ≠ info.ModTime.Truncate Second) →
      fnCalls (indexEntry g os ctx fn s entry).2.trace
        = fnCalls s.trace ++ [⟨os.Join g.root entry.Name, p, info⟩]) ∧
    (¬ (g.allFiles = true ∨
        entry.ModifiedAt.Truncate Second ≠ info.ModTime.Truncate Second) →
      fnCalls (indexEntry g os ctx fn s entry).2.trace = fnCalls s.trace ∧
        (indexEntry g os ctx fn s entry).1 = none) ∧
    (∀ (s2 : GitState) (e2 : IndexEntry), FileModeIsRegular e2.Mode = false →
      fnCalls (indexEntry g os ctx fn s2 e2).2.trace = fnCalls s2.trace) := by
  refine ⟨?_, ?_, ?_⟩
  · intro h
    have hc := (hasChanged_iff g entry info).2 h
    cases hfn : fn ⟨os.Join g.root entry.Name, p, info⟩ none <;>
      simp [indexEntry, hctx, hreg, hstat, hrel, hc, hfn, fnCalls_append, fnCalls]
  · intro h
    have hc : hasChanged g entry info = false := by
      cases hv : hasChanged g entry info with
      | false => rfl
      | true => exact absurd ((hasChanged_iff g entry info).1 hv) h
    simp [indexEntry, hctx, hreg, hstat, hc]
  · intro s2 e2 h2
    cases hd : ctx.Done s2.polls <;> simp [indexEntry, hd, h2]

/-- The loop body at `b.txt` of the example, recorded in the index in the second
before the one it has on disk: `fn` is invoked once, with `b.txt`. -/
theorem indexEntry_emits_iff_hasChanged_witness :
    fnCalls (indexEntry (exGit false ["/repo"]) (exOS []) exCtx fnOk
        { cache := none, polls := 0, trace := [] }
        { Name := "b.txt", Mode := 0o100644, ModifiedAt := exOld }).2.trace = [exFileB] :=
  (indexEntry_emits_iff_hasChanged (exGit false ["/repo"]) (exOS []) exCtx fnOk
      { cache := none, polls := 0, trace := [] }
      { Name := "b.txt", Mode := 0o100644, ModifiedAt := exOld } exInfoB "b.txt"
      rfl (by decide) rfl (by decide)).1 (Or.inr (by decide))

/-- C4 (the code at the failing input). The index tracks the executable `run.sh` with
mode 0100755, which `IsRegular` of go-git rejects; on disk it is a regular file (no
directory, no symlink) whose modification time differs from the recorded one by a
second. With the root as the element of the channel, `Walk` returns nil having
invoked `fn` with `a.txt` only when `allFiles` is set, and with no file when it is
not: `run.sh` is never emitted. With the subpath `/repo/run.sh` as the element,
`Walk` does emit `run.sh`. -/
theorem gitWalk_root_skips_executable :
    FileModeIsRegular 0o100755 = false ∧
    exExecOS.Lstat "/repo/run.sh" = .ok exInfoRun ∧
    exInfoRun.IsDir = false ∧
    (exInfoRun.Mode &&& ModeSymlink == ModeSymlink) = false ∧
    exOld.Truncate Second ≠ exInfoRun.ModTime.Truncate Second ∧
    ((exExecGit true ["/repo"]).Walk exExecOS exCtx fnOk).1 = .ret none ∧
    fnCalls ((exExecGit true ["/repo"]).Walk exExecOS exCtx fnOk).2.trace = [exFileA] ∧
    ((exExecGit false ["/repo"]).Walk exExecOS exCtx fnOk).1 = .ret none ∧
    fnCalls ((exExecGit false ["/repo"]).Walk exExecOS exCtx fnOk).2.trace = [] ∧
    fnCalls ((exExecGit true ["/repo/run.sh"]).Walk exExecOS exCtx fnOk).2.trace
      = [exFileRun] ∧
    fnCalls ((exExecGit false ["/repo/run.sh"]).Walk exExecOS exCtx fnOk).2.trace
      = [exFileRun] :=
  ⟨by decide, rfl, by decide, by decide, by decide, by decide, by decide, by decide,
    by decide, by decide, by decide⟩

/-- The loop over the index as a whole: with a context that is never cancelled, a
callback that accepts every file, and every entry whose mode passes `IsRegular` found
on disk with a relative path, the loop runs to its end and `fn` is invoked with the files of
`rootEmits`, one per entry at most, in the order of the index. -/
theorem indexLoop_emits (g : gitWalker) (os : OS) (ctx : Context) (fn : WalkFunc)
    (hctx : ∀ n, ctx.Done n = false) (hfn : ∀ file, fn file none = none)
    (idx : List IndexEntry)
    (hidx : ∀ e ∈ idx, FileModeIsRegular e.Mode = true →
      ∃ info p, os.Lstat (os.Join g.root e.Name) = .ok info ∧
        g.relPath os (os.Join g.root e.Name) = .ok p)
    (s : GitState) :
    (indexLoop g os ctx fn idx s).1 = none ∧
    fnCalls (indexLoop g os ctx fn idx s).2.trace
      = fnCalls s.trace ++ idx.filterMap (rootEmits g os) := by
  induction idx generalizing s with
  | nil => simp [indexLoop]
  | cons e rest ih =>
    have hrest := fun s1 => ih (fun e2 h2 => hidx e2 (by simp [h2])) s1
    cases hreg : FileModeIsRegular e.Mode with
    | false =>
      have hstep : indexEntry g os ctx fn s e = (none, { s with polls := s.polls + 1 }) := by
        simp [indexEntry, hctx, hreg]
      simp only [indexLoop, hstep]
      rw [(hrest _).2]
      simp [hrest, rootEmits, hreg]
    | true =>
      obtain ⟨info, p, hstat, hrel⟩ := hidx e (by simp) hreg
      cases hc : hasChanged g e info with
      | false =>
        have hno : ¬ (g.allFiles = true ∨
            e.ModifiedAt.Truncate Second ≠ info.ModTime.Truncate Second) := by
          intro h
          rw [(hasChanged_iff g e info).2 h] at hc
          cases hc
        have hstep : indexEntry g os ctx fn s e = (none, { s with polls := s.polls + 1 }) := by
          simp [indexEntry, hctx, hreg, hstat, hc]
        simp only [indexLoop, hstep]
        rw [(hrest _).2]
        simp [hrest, rootEmits, hreg, hstat, hrel, hno]
      | true =>
        have hyes := (hasChanged_iff g e info).1 hc
        have hstep : indexEntry g os ctx fn s e
            = (none, ⟨s.cache, s.polls + 1,
                s.trace ++ [.fn ⟨os.Join g.root e.Name, p, info⟩]⟩) := by
          simp [indexEntry, hctx, hreg, hstat, hrel, hc, hfn]
        simp only [indexLoop, hstep]
        rw [(hrest _).2]
        simp [hrest, rootEmits, hreg, hstat, hrel, hyes, fnCalls_append, fnCalls]

/-! ## C6: the no-op cache -/

/-- C6. The no-op cache hands out `noOpTx` from `BeginRead`, `View` and `Update`; with
that handle `GetPath` returns no Entry and no error for every path, `UpdatePath`
returns no error and leaves the handle as it is, and so does any batch of updates,
after which `GetPath` still finds nothing. A filesystem walker over the no-op cache,
holding no transaction or one of that cache, invokes `fn` exactly once for a regular
file with a relative path, returns what `fn` returned, and again holds no transaction
or one of that cache. -/
theorem NoOpCache_emits_every_file (f : filesystemWalker) (os : OS) (fn : WalkFunc)
    (batchSize : Nat) (s : WalkState) (path p : String) (info : FileInfo)
    (err : Option Error)
    (hcache : f.cache = .NoOpCache)
    (hs : s.tx = none ∨ s.tx = some .noOpTx)
    (hdir : info.IsDir = false)
    (hsym : (info.Mode &&& ModeSymlink == ModeSymlink) = false)
    (hrel : f.relPath os path = .ok p) :
    Cache.NoOpCache.BeginRead = .ok .noOpTx ∧
    (∀ g : Tx → Option Error × Tx, Cache.NoOpCache.View g = (g .noOpTx).1) ∧
    (∀ g : Tx → Option Error × Tx,
      Cache.NoOpCache.Update g = ((g .noOpTx).1, .NoOpCache)) ∧
    (∀ q, Cache.NoOpCache.GetPath .noOpTx q = .ok none) ∧
    (∀ q entry, Cache.NoOpCache.UpdatePath .noOpTx q entry = (none, .noOpTx)) ∧
    (∀ batch, updateLoop .NoOpCache batch .noOpTx = (none, .noOpTx)) ∧
    (∀ batch, f.UpdatePaths batch = (none, .NoOpCache)) ∧
    fnCalls (walkFn f os fn batchSize s path (some info) err).2.trace
      = fnCalls s.trace ++ [⟨path, p, info⟩] ∧
    (walkFn f os fn batchSize s path (some info) err).1 = .ret (fn ⟨path, p, info⟩ none) ∧
    ((walkFn f os fn batchSize s path (some info) err).2.tx = none ∨
      (walkFn f os fn batchSize s path (some info) err).2.tx = some .noOpTx) := by
  have hloop : ∀ batch, updateLoop .NoOpCache batch .noOpTx = (none, .noOpTx) := by
    intro batch
    induction batch with
    | nil => rfl
    | cons a rest ih => simp [updateLoop, Cache.UpdatePath, NoOpCache.tx, ih]
  have htx : s.tx = some .noOpTx ∨ (s.tx = none ∧ f.cache.BeginRead = .ok .noOpTx) := by
    rcases hs with h | h
    · exact Or.inr ⟨h, by rw [hcache]; rfl⟩
    · exact Or.inl h
  have hget : f.cache.GetPath .noOpTx p = .ok none := by rw [hcache]; rfl
  refine ⟨rfl, fun _ => rfl, fun _ => rfl, fun _ => rfl, fun _ _ => rfl, hloop, ?_, ?_⟩
  · intro batch
    simp [filesystemWalker.UpdatePaths, hcache, Cache.Update, hloop]
  · have hstep : ∃ s0 : WalkState, fnCalls s0.trace = fnCalls s.trace ∧
        (s0.tx = some .noOpTx) ∧
        walkFn f os fn batchSize s path (some info) err
          = walkFnTail fn batchSize s0 .noOpTx ⟨path, p, info⟩ none := by
      rcases htx with h | ⟨h, hb⟩
      · refine ⟨⟨s.tx, s.processed, s.trace ++ [.getPath .noOpTx p]⟩, ?_, h, ?_⟩
        · simp [fnCalls_append, fnCalls]
        · simp [walkFn, hdir, hsym, hrel, h, hget]
      · refine ⟨⟨some .noOpTx, s.processed,
            s.trace ++ [.beginRead (.ok .noOpTx)] ++ [.getPath .noOpTx p]⟩, ?_, rfl, ?_⟩
        · simp [fnCalls_append, fnCalls]
        · simp [walkFn, hdir, hsym, hrel, h, hb, hget]
    obtain ⟨s0, h0, h0tx, hw⟩ := hstep
    have htail := (walkFnTail_fnCalls fn batchSize s0 .noOpTx ⟨path, p, info⟩ none).1 rfl
    rw [hw, ← h0]
    refine ⟨htail.1, htail.2, ?_⟩
    by_cases hb : s0.processed + 1 = batchSize <;>
      simp [walkFnTail, hb, Rollback_nil, changedOrNew, h0tx]

/-- C6 at `a.txt` of the example, before any transaction is open: the hypotheses hold
there and `fn` is invoked once, with `a.txt`. -/
theorem NoOpCache_emits_every_file_witness :
    fnCalls (walkFn (NewFilesystem "/repo" .NoOpCache ["/repo"]) (exOS []) fnOk 1024
        { tx := none, processed := 0, trace := [] } "/repo/a.txt" (some exInfoA) none).2.trace
      = [exFileA] :=
  (NoOpCache_emits_every_file (NewFilesystem "/repo" .NoOpCache ["/repo"]) (exOS []) fnOk
    1024 { tx := none, processed := 0, trace := [] } "/repo/a.txt" "a.txt" exInfoA none
    rfl (Or.inl rfl) (by decide) (by decide) (by decide)).2.2.2.2.2.2.2.1

/-! ## C11: cancellation -/

/-- The filesystem `Walk` does not look at its context: any two contexts give the same
result and the same calls. -/
theorem filesystemWalk_ignores_context (f : filesystemWalker) (os : OS)
    (ctx1 ctx2 : Context) (fn : WalkFunc) : f.Walk os ctx1 fn = f.Walk os ctx2 fn :=
  rfl

/-- The git `Walk` does not poll its context for an element other than the root: any
two contexts give the same result and the same calls for such an element. -/
theorem gitPaths_subpath_ignores_context (g : gitWalker) (os : OS) (ctx1 ctx2 : Context)
    (fn : WalkFunc) (idx : List IndexEntry) (path : String) (s : GitState)
    (hroot : (path == g.root) = false) :
    gitPaths g os ctx1 fn idx [path] s = gitPaths g os ctx2 fn idx [path] s := by
  simp only [gitPaths, hroot]
  rfl

/-- The loop over the index, for the root element, polls the context before every
entry: once the context is cancelled the loop returns the error of the context at
the next entry, without a call. -/
theorem indexLoop_cancelled (g : gitWalker) (os : OS) (ctx : Context) (fn : WalkFunc)
    (entry : IndexEntry) (rest : List IndexEntry) (s : GitState)
    (hdone : ctx.Done s.polls = true) :
    indexLoop g os ctx fn (entry :: rest) s
      = (some (.ret (some ctx.Err)), { s with polls := s.polls + 1 }) := by
  simp [indexLoop, indexEntry, hdone]

/-- C11 (the code at the failing inputs). With a context cancelled before the call:
the filesystem `Walk` over `/repo` returns nil having invoked `fn` with `a.txt` and
`b.txt`; the git `Walk` over the subpath `/repo/a.txt` returns nil having invoked `fn`
with `a.txt`; the git `Walk` over the root returns the error of the context without
invoking `fn`. -/
theorem Walk_with_cancelled_context :
    ((NewFilesystem "/repo" .NoOpCache ["/repo"]).Walk (exOS []) exCancelled fnOk).1
      = .ret none ∧
    fnCalls ((NewFilesystem "/repo" .NoOpCache ["/repo"]).Walk (exOS []) exCancelled
      fnOk).2.trace = [exFileA, exFileB] ∧
    ((exGit true ["/repo/a.txt"]).Walk (exOS []) exCancelled fnOk).1 = .ret none ∧
    fnCalls ((exGit true ["/repo/a.txt"]).Walk (exOS []) exCancelled fnOk).2.trace
      = [exFileA] ∧
    ((exGit true ["/repo"]).Walk (exOS []) exCancelled fnOk).1
      = .ret (some "context canceled") ∧
    fnCalls ((exGit true ["/repo"]).Walk (exOS []) exCancelled fnOk).2.trace = [] :=
  ⟨by decide, by decide, by decide, by decide, by decide, by decide⟩

/-! ## C12: the fast path of `relPath` -/

/-- For a walker built by `NewFilesystem` or `NewGit`, whose offset is the length of
the root plus one, `relPath` never slices out of range. -/
theorem relPath_in_range (root : String) (os : OS) (path msg : String) :
    relPath root (root.length + 1) os path ≠ .panic msg := by
  unfold relPath
  split
  · rename_i h
    have h2 : ¬ (root.length > path.length) := by omega
    simp only [h2, if_false]
    split
    · simp
    · split <;> simp
  · split <;> simp

/-- C12 (the code at the failing inputs). For the root `/repo` and the sibling path
`/repox/s` the fast path is taken and gives `/s`, where `filepath.Rel` gives
`../repox/s`. For the root written `/repo/` and the path `/repo/a.txt` it gives `.txt`,
where `filepath.Rel` gives `a.txt`; the git walker that `NewGit` builds for that root
emits `a.txt` and `b.txt` both under the relative path `.txt`. -/
theorem relPath_fast_path_differs :
    (NewFilesystem "/repo" .NoOpCache ["/repox"]).relPath unixOS "/repox/s" = .ok "/s" ∧
    filepathRel "/repo" "/repox/s" = .ok "../repox/s" ∧
    (NewFilesystem "/repo/" .NoOpCache ["/repo/"]).relPath unixOS "/repo/a.txt"
      = .ok ".txt" ∧
    filepathRel "/repo/" "/repo/a.txt" = .ok "a.txt" ∧
    NewGit unixOS "/repo/" true ["/repo/"] = .ok exGitSlash ∧
    fnCalls (exGitSlash.Walk unixOS exCtx fnOk).2.trace
      = [{ Path := "/repo/a.txt", RelPath := ".txt", Info := exInfoA },
         { Path := "/repo/b.txt", RelPath := ".txt", Info := exInfoB }] :=
  ⟨by decide, rfl, by decide, rfl, rfl, by decide⟩

end Treefmt
